import Mathlib

/-!
Verification of the data-import and field-mapping pipeline of the tax-k
repository.  The TypeScript sources under `src/lib/data-processing.ts`,
`src/lib/simple-azure-service.ts`, the document-processing API routes and
the mapping UI component are shallowly embedded below: JavaScript values
become the inductive type `Value`, JavaScript objects become association
lists in insertion order, and the regular-expression matching performed by
the OCR fallback extractors is abstracted as the optional captured groups
handed to the embedded post-match logic.  Machine floats are idealised as
rationals; nothing proved here depends on float rounding.
-/

/-- A JavaScript scalar value as it occurs in parsed rows: `null`,
`undefined`, a string, a (finite) number modelled as a rational, the
floating-point `NaN`, a boolean, or a `Date` object (`none` meaning an
Invalid Date). -/
inductive Value where
  | vNull : Value
  | vUndefined : Value
  | vStr : String → Value
  | vNum : Rat → Value
  | vNaN : Value
  | vBool : Bool → Value
  | vDate : Option Int → Value
deriving DecidableEq

/-- A JavaScript object holding scalar values, in insertion order. -/
abbrev Row := List (String × Value)

/-- A JavaScript object holding string values, in insertion order (the
shape of the OCR extraction maps and of the field-mapping record). -/
abbrev StrMap := List (String × String)

/-- Property read `m[k]`: the value at the first occurrence of key `k`. -/
def objGet {α : Type} (m : List (String × α)) (k : String) : Option α :=
  match m with
  | [] => none
  | (k', v) :: rest => if k' = k then some v else objGet rest k

/-- Property write `m[k] = v`: overwrite an existing key in place,
otherwise append the new key (JavaScript object assignment). -/
def objSet {α : Type} (m : List (String × α)) (k : String) (v : α) :
    List (String × α) :=
  if m.any (fun p => p.1 = k) then
    m.map (fun p => if p.1 = k then (k, v) else p)
  else
    m ++ [(k, v)]

/-- Reading `row[sourceField]` on a plain object: a missing key yields
`undefined`. -/
def rowGet (row : Row) (k : String) : Value :=
  match objGet row k with
  | some v => v
  | none => Value.vUndefined

/-- JavaScript truthiness of a scalar value. -/
def jsTruthy : Value → Bool
  | .vNull => false
  | .vUndefined => false
  | .vStr s => decide (s ≠ "")
  | .vNum q => decide (q ≠ 0)
  | .vNaN => false
  | .vBool b => b
  | .vDate _ => true

/-- Digits to a natural number (helper for the numeric parsers). -/
def digitsToNat (cs : List Char) : Nat :=
  cs.foldl (fun n c => n * 10 + (c.toNat - 48)) 0

/-- Parse an unsigned decimal literal `digits[.digits]` from the front of
a character list, returning the value and the unconsumed remainder; fails
when no digit is present. -/
def parseDecimalCore (cs : List Char) : Option (Rat × List Char) :=
  let intPart := cs.takeWhile Char.isDigit
  let rest := cs.dropWhile Char.isDigit
  match rest with
  | '.' :: rest2 =>
      let fracPart := rest2.takeWhile Char.isDigit
      let rest3 := rest2.dropWhile Char.isDigit
      if intPart.isEmpty && fracPart.isEmpty then none
      else some (mkRat
        (digitsToNat intPart * 10 ^ fracPart.length + digitsToNat fracPart)
        (10 ^ fracPart.length), rest3)
  | _ =>
      if intPart.isEmpty then none
      else some (mkRat (digitsToNat intPart) 1, rest)

/-- Parse an optionally signed decimal literal from the front of a
character list. -/
def parseSignedDecimal (cs : List Char) : Option (Rat × List Char) :=
  match cs with
  | '-' :: rest => (parseDecimalCore rest).map (fun p => (-p.1, p.2))
  | '+' :: rest => parseDecimalCore rest
  | _ => parseDecimalCore cs

/-- Whitespace-trimming (`String.prototype.trim`), computed on the
character list. -/
def jsTrim (s : String) : String :=
  String.mk
    (((s.data.dropWhile Char.isWhitespace).reverse.dropWhile
      Char.isWhitespace).reverse)

/-- Lower-casing (`String.prototype.toLowerCase`), computed on the
character list. -/
def toLowerJS (s : String) : String :=
  String.mk (s.data.map Char.toLower)

/-- `Number(s)` on a string: trimmed; empty means `0`; otherwise the whole
string must be a signed decimal literal, else the result is `NaN`
(modelled as `none`).  Exponent forms are not needed by this development. -/
def parseNumberJS (s : String) : Option Rat :=
  let t := (jsTrim s).data
  if t.isEmpty then some 0
  else
    match parseSignedDecimal t with
    | some (q, []) => some q
    | _ => none

/-- `parseFloat(s)`: parse the longest signed decimal prefix after
trimming; `NaN` (`none`) when no digits lead the string. -/
def parseFloatJS (s : String) : Option Rat :=
  (parseSignedDecimal (jsTrim s).data).map Prod.fst

/-- `Number(value)` on a scalar value; `none` is `NaN`. -/
def jsNumber : Value → Option Rat
  | .vNull => some 0
  | .vUndefined => none
  | .vStr s => parseNumberJS s
  | .vNum q => some q
  | .vNaN => none
  | .vBool b => some (if b then 1 else 0)
  | .vDate t => t.map (fun n => (n : Rat))

/-- Render a rational the way JavaScript renders the corresponding
number when it is integral; non-integral values use a simplified
`num/den` rendering (no claim in this development depends on it). -/
def ratToString (q : Rat) : String :=
  if q.den = 1 then toString q.num
  else toString q.num ++ "/" ++ toString q.den

/-- `String(value)` on a scalar value.  The `Date` case is a placeholder
string; no claim depends on it. -/
def jsToString : Value → String
  | .vNull => "null"
  | .vUndefined => "undefined"
  | .vStr s => s
  | .vNum q => ratToString q
  | .vNaN => "NaN"
  | .vBool b => if b then "true" else "false"
  | .vDate _ => "[Date]"

/-- `s.replace(/,/g, "")`: remove every comma. -/
def stripCommas (s : String) : String :=
  String.mk (s.data.filter (fun c => c ≠ ','))

/-- `String(value).replace(/[$,]/g, "")`: remove every dollar sign and
comma (the decimal-coercion preprocessing). -/
def stripDollarComma (s : String) : String :=
  String.mk (s.data.filter (fun c => c ≠ '$' && c ≠ ','))

/-- `a || b` on scalar values: `a` when truthy, else `b`. -/
def jsOr (a b : Value) : Value :=
  if jsTruthy a then a else b

/-- The declared type of a form-template field
(`src/lib/data-processing.ts`, `validateFormData` signature). -/
inductive FieldType where
  | number : FieldType
  | decimal : FieldType
  | boolean : FieldType
  | text : FieldType
  | date : FieldType
  | select : FieldType
deriving DecidableEq

/-- One entry of the form template passed to `validateFormData`.  The
source property `type` is a reserved word in Lean and is renamed
`ftype`. -/
structure FormField where
  name : String
  label : String
  ftype : FieldType
  required : Bool
deriving DecidableEq

/-- A validation error as pushed by `validateFormData`:
`{row: index + 1, field: targetField, message, value}`. -/
structure ValidationError where
  row : Nat
  field : String
  message : String
  value : Value
deriving DecidableEq

/-- The result record of `validateFormData`. -/
structure ProcessingResult where
  success : Bool
  processed : Nat
  errors : List ValidationError
  data : List Row
deriving DecidableEq

/-- The mutable per-row state of `validateFormData`: the row object under
construction, the errors pushed while processing this row, and the
`hasErrors` flag. -/
structure RowState where
  processedRow : Row
  rowErrors : List ValidationError
  hasErrors : Bool
deriving DecidableEq

/-- `value === null || value === undefined || value === ''`. -/
def emptyVal (v : Value) : Bool :=
  v = Value.vNull || v = Value.vUndefined || v = Value.vStr ""

/-- The boolean coercion of `validateFormData`
(`src/lib/data-processing.ts` lines 411-416), exactly as written:
`Boolean(value) || String(value).toLowerCase() === 'true' ||
String(value).toLowerCase() === 'yes' || String(value) === '1'`. -/
def coerceBoolean (v : Value) : Bool :=
  jsTruthy v
    || toLowerJS (jsToString v) = "true"
    || toLowerJS (jsToString v) = "yes"
    || jsToString v = "1"

/-- The type-coercion switch of `validateFormData` for a non-empty value:
returns the processed value together with the validation errors pushed by
this switch.  `dateParse` abstracts `new Date(value).getTime()`
(implementation-defined date parsing), `none` meaning an Invalid Date. -/
def coerceTyped (dateParse : Value → Option Int) (f : FormField)
    (index : Nat) (targetField : String) (value : Value) :
    Value × List ValidationError :=
  match f.ftype with
  | .number =>
      match jsNumber value with
      | some q => (Value.vNum q, [])
      | none => (Value.vNaN,
          [⟨index + 1, targetField, f.label ++ " must be a number", value⟩])
  | .decimal =>
      match parseFloatJS (stripDollarComma (jsToString value)) with
      | some q => (Value.vNum q, [])
      | none => (Value.vNaN,
          [⟨index + 1, targetField,
            f.label ++ " must be a valid decimal number", value⟩])
  | .boolean => (Value.vBool (coerceBoolean value), [])
  | .text => (Value.vStr (jsTrim (jsToString value)), [])
  | .date =>
      match dateParse value with
      | some t => (Value.vDate (some t), [])
      | none => (Value.vDate none,
          [⟨index + 1, targetField, f.label ++ " must be a valid date", value⟩])
  | .select => (Value.vStr (jsTrim (jsToString value)), [])

/-- Processing of one `(sourceField, targetField)` mapping pair for one
row inside `validateFormData`: unknown targets are skipped; a required
empty value pushes one error and ends the pair (the `return` in the
source `forEach`); otherwise the value is coerced (an empty optional
value passes through unchanged) and assigned to the row object. -/
def processPair (dateParse : Value → Option Int)
    (template : List FormField) (row : Row) (index : Nat)
    (st : RowState) (pair : String × String) : RowState :=
  match template.find? (fun f => f.name = pair.2) with
  | none => st
  | some formField =>
    let value := rowGet row pair.1
    if formField.required && emptyVal value then
      { st with
        rowErrors := st.rowErrors ++
          [⟨index + 1, pair.2,
            "Required field " ++ formField.label ++ " is missing", value⟩],
        hasErrors := true }
    else
      let pv :=
        if emptyVal value then (value, ([] : List ValidationError))
        else coerceTyped dateParse formField index pair.2 value
      { processedRow := objSet st.processedRow pair.2 pv.1,
        rowErrors := st.rowErrors ++ pv.2,
        hasErrors := st.hasErrors || !pv.2.isEmpty }

/-- Processing of one raw row by `validateFormData`: fold the mapping
pairs (in `Object.entries` order) over the fresh per-row state. -/
def processRow (dateParse : Value → Option Int)
    (template : List FormField) (fieldMappings : StrMap)
    (row : Row) (index : Nat) : RowState :=
  fieldMappings.foldl (processPair dateParse template row index) ⟨[], [], false⟩

/-- `validateFormData` (`src/lib/data-processing.ts` lines 345-456):
every row is processed against the field mappings; rows whose processing
pushed no error are collected into `data`, all errors are accumulated in
input order, and `success` holds exactly when no error was pushed. -/
def validateFormData (dateParse : Value → Option Int)
    (data : List Row) (formTemplate : List FormField)
    (fieldMappings : StrMap) : ProcessingResult :=
  let results := data.enum.map
    (fun p => processRow dateParse formTemplate fieldMappings p.2 p.1)
  let errors := (results.map RowState.rowErrors).flatten
  let processedData := (results.filter (fun st => !st.hasErrors)).map
    RowState.processedRow
  { success := errors.isEmpty
    processed := processedData.length
    errors := errors
    data := processedData }

/-- Mapping-session set operation (`updateFieldMapping` in the mapping
UI component): `fieldMappings[sourceField] = targetField` with no check
whatsoever on the target field. -/
def updateFieldMapping (fieldMappings : StrMap)
    (targetField sourceField : String) : StrMap :=
  objSet fieldMappings sourceField targetField

/-- Mapping-session unset operation (`removeFieldMapping`):
`delete fieldMappings[sourceField]`. -/
def removeFieldMapping (fieldMappings : StrMap) (sourceField : String) :
    StrMap :=
  fieldMappings.filter (fun p => p.1 ≠ sourceField)

/-- Lower-case and strip non-alphanumerics
(`.toLowerCase().replace(/[^a-z0-9]/g, '')`). -/
def normalizeFieldName (s : String) : String :=
  String.mk ((toLowerJS s).data.filter Char.isAlphanum)

/-- Whether `pat` occurs at the head of `l`. -/
def leadsWith {α : Type} [DecidableEq α] : List α → List α → Bool
  | [], _ => true
  | _ :: _, [] => false
  | a :: as, b :: bs => a = b && leadsWith as bs

/-- Whether `pat` occurs contiguously anywhere inside `l`
(the `String.prototype.includes` test). -/
def occursIn {α : Type} [DecidableEq α] : List α → List α → Bool
  | pat, [] => pat.isEmpty
  | pat, c :: rest => leadsWith pat (c :: rest) || occursIn pat rest

/-- `a.includes(b)` on strings. -/
def strIncludes (a b : String) : Bool :=
  occursIn b.data a.data

/-- Fuzzy auto-suggestion (`autoSuggestMappings` in the mapping UI
component): for each source column, the first form field whose
normalized name or label contains, or is contained in, the normalized
column name is suggested; the cumulative suggestions object replaces the
whole mapping. -/
def autoSuggestMappings (sourceFields : List String)
    (formFields : List FormField) : StrMap :=
  sourceFields.foldl
    (fun suggestions sourceField =>
      let sourceLower := normalizeFieldName sourceField
      match formFields.find? (fun ff =>
        let targetLower := normalizeFieldName ff.name
        let labelLower := normalizeFieldName ff.label
        strIncludes sourceLower targetLower ||
        strIncludes targetLower sourceLower ||
        strIncludes sourceLower labelLower ||
        strIncludes labelLower sourceLower) with
      | some bestMatch => objSet suggestions sourceField bestMatch.name
      | none => suggestions)
    []

/-- The regular-expression match results feeding the regex fallback
extractor `performFallbackExtraction`
(`src/unnamed/part_001`): the list of two-capitalized-word matches, and
the first captured group of the company, wages, federal-tax, EIN and SSN
patterns (`none` when the pattern does not match the OCR text). -/
structure FallbackMatches where
  nameMatches : List (String × String)
  companyMatch : Option String
  wageMatch : Option String
  fedTaxMatch : Option String
  einMatch : Option String
  ssnMatch : Option String
deriving DecidableEq

/-- The stop-list of form-boilerplate words for the person-name
fallback. -/
def excludeWords : List String :=
  ["Employee", "Employer", "Federal", "Social", "Security", "Medicare",
   "Control", "Wages", "Income", "State"]

/-- The common recording pattern of the fallback extractors: when the
pattern matched (`o` is the captured group, possibly already
post-processed), assign the field, otherwise leave the map unchanged. -/
def setOptional {α : Type} (d : StrMap) (key : String) (o : Option α)
    (f : α → String) : StrMap :=
  match o with
  | some x => objSet d key (f x)
  | none => d

/-- The bounded-amount recording pattern of `performFallbackExtraction`:
when the pattern matched, strip thousands separators, parse with
`parseFloat`, and record `amount.toString()` only when the parse
succeeded (`!isNaN`) and the amount lies within `[lo, hi]`; otherwise
the map is unchanged (the match is discarded, never clamped). -/
def setBoundedAmount (d : StrMap) (key : String) (o : Option String)
    (lo hi : Rat) : StrMap :=
  match o with
  | some s =>
      match parseFloatJS (stripCommas s) with
      | some amount =>
          if lo ≤ amount ∧ amount ≤ hi then
            objSet d key (ratToString amount)
          else d
      | none => d
  | none => d

/-- `performFallbackExtraction` (`src/unnamed/part_001` lines 220-295)
with the regex matching abstracted as `FallbackMatches`: the first
non-excluded name pair is recorded; the company match is trimmed and
recorded; the wages amount is recorded only when it parses and lies in
`[1000, 1000000]`; the federal-tax amount only within `[0, 100000]`; EIN
and SSN matches are recorded verbatim. -/
def performFallbackExtraction (m : FallbackMatches) : StrMap :=
  let d1 := setOptional [] "employeeName"
    (m.nameMatches.find? (fun p =>
      !(excludeWords.contains p.1) && !(excludeWords.contains p.2)))
    (fun p => p.1 ++ " " ++ p.2)
  let d2 := setOptional d1 "employerName" m.companyMatch jsTrim
  let d3 := setBoundedAmount d2 "wages" m.wageMatch 1000 1000000
  let d4 := setBoundedAmount d3 "federalTaxWithheld" m.fedTaxMatch 0 100000
  let d5 := setOptional d4 "employerEIN" m.einMatch id
  setOptional d5 "employeeSSN" m.ssnMatch id

/-- The regular-expression match results feeding `extractDataFromText`
(`src/app/api/data-upload/document/[id]/process/route.ts` lines
304-364): each field records the first captured group of the first
matching pattern of its pattern list, `none` when none matches. -/
structure TextMatches where
  nameMatch : Option String
  employerMatch : Option String
  wagesMatch : Option String
  fedTaxMatch : Option String
  interestMatch : Option String
  dividendMatch : Option String
  nonemployeeMatch : Option String
  einMatch : Option String
deriving DecidableEq

/-- `extractDataFromText` with the regex matching abstracted as
`TextMatches`: names are trimmed and recorded; every matched monetary
amount is recorded after comma-stripping, with no bound check of any
kind; the EIN match is recorded verbatim. -/
def extractDataFromText (m : TextMatches) : StrMap :=
  let d1 := setOptional [] "employeeName" m.nameMatch jsTrim
  let d2 := setOptional d1 "employerName" m.employerMatch jsTrim
  let d3 := setOptional d2 "wages" m.wagesMatch stripCommas
  let d4 := setOptional d3 "federalTaxWithheld" m.fedTaxMatch stripCommas
  let d5 := setOptional d4 "interestIncome" m.interestMatch stripCommas
  let d6 := setOptional d5 "dividendIncome" m.dividendMatch stripCommas
  let d7 := setOptional d6 "nonemployeeCompensation" m.nonemployeeMatch
    stripCommas
  setOptional d7 "employerEIN" m.einMatch id

/-- JavaScript object spread `{...a, ...b}` on string maps: the keys of
`a` in order, each carrying `b`'s value when `b` also has the key, then
the keys of `b` absent from `a`, in order. -/
def spreadMerge (a b : StrMap) : StrMap :=
  a.map (fun p => (p.1, (objGet b p.1).getD p.2)) ++
    b.filter (fun p => (objGet a p.1).isNone)

/-- The fallback-enhancement step of `processWithAzureDocumentIntelligence`
(`src/unnamed/part_001` lines 189-202, with the identical
`Object.assign` form at
`src/app/api/data-upload/document/[id]/process/route.ts` lines 207-212):
when the backend field map has fewer than 3 keys and OCR text is
available, the regex-fallback fields are merged over it by object
spread. -/
def enhanceWithFallback (extractedData : StrMap) (ocrText : String)
    (m : FallbackMatches) : StrMap :=
  if extractedData.length < 3 ∧ ocrText ≠ "" then
    spreadMerge extractedData (performFallbackExtraction m)
  else extractedData

/-- The document types of the pipeline (`DocumentType` in
`src/lib/types.ts`, as enumerated by `getIncomeTypeFromForm`). -/
inductive DocumentType where
  | W2 | W2_CORRECTED | W3
  | FORM_1099_NEC | FORM_1099_MISC | FORM_1099_INT | FORM_1099_DIV
  | FORM_1099_G | FORM_1099_R | FORM_1099_K | FORM_1099_B | FORM_1099_S
  | FORM_1099_A | FORM_1099_C | FORM_1099_OID | FORM_1099_PATR
  | FORM_1099_Q | FORM_1099_SA
  | FORM_1098 | FORM_1098_E | FORM_1098_T | FORM_5498
  | SCHEDULE_K1 | OTHER_TAX_DOCUMENT | RECEIPT | STATEMENT | UNKNOWN
deriving DecidableEq

/-- The income-ledger categories (`IncomeType` in `src/lib/types.ts`). -/
inductive IncomeType where
  | W2_WAGES | NONEMPLOYEE_COMPENSATION | BUSINESS_INCOME | INTEREST
  | DIVIDENDS | UNEMPLOYMENT | RETIREMENT_DISTRIBUTIONS | OTHER_INCOME
  | PROCEEDS_FROM_BROKER | PROCEEDS_FROM_REAL_ESTATE
  | ACQUISITION_ABANDONMENT_SECURED_PROPERTY | CANCELLATION_OF_DEBT
  | ORIGINAL_ISSUE_DISCOUNT | TAXABLE_PATRONAGE_DIVIDENDS
  | QUALIFIED_EDUCATION_EXPENSES | ARCHER_MSA_DISTRIBUTIONS
deriving DecidableEq

/-- The name of a document type as interpolated into the entry
description. -/
def docTypeName : DocumentType → String
  | .W2 => "W2"
  | .W2_CORRECTED => "W2_CORRECTED"
  | .W3 => "W3"
  | .FORM_1099_NEC => "FORM_1099_NEC"
  | .FORM_1099_MISC => "FORM_1099_MISC"
  | .FORM_1099_INT => "FORM_1099_INT"
  | .FORM_1099_DIV => "FORM_1099_DIV"
  | .FORM_1099_G => "FORM_1099_G"
  | .FORM_1099_R => "FORM_1099_R"
  | .FORM_1099_K => "FORM_1099_K"
  | .FORM_1099_B => "FORM_1099_B"
  | .FORM_1099_S => "FORM_1099_S"
  | .FORM_1099_A => "FORM_1099_A"
  | .FORM_1099_C => "FORM_1099_C"
  | .FORM_1099_OID => "FORM_1099_OID"
  | .FORM_1099_PATR => "FORM_1099_PATR"
  | .FORM_1099_Q => "FORM_1099_Q"
  | .FORM_1099_SA => "FORM_1099_SA"
  | .FORM_1098 => "FORM_1098"
  | .FORM_1098_E => "FORM_1098_E"
  | .FORM_1098_T => "FORM_1098_T"
  | .FORM_5498 => "FORM_5498"
  | .SCHEDULE_K1 => "SCHEDULE_K1"
  | .OTHER_TAX_DOCUMENT => "OTHER_TAX_DOCUMENT"
  | .RECEIPT => "RECEIPT"
  | .STATEMENT => "STATEMENT"
  | .UNKNOWN => "UNKNOWN"

/-- `getIncomeTypeFromForm` (`src/lib/data-processing.ts` lines
523-555). -/
def getIncomeTypeFromForm : DocumentType → IncomeType
  | .W2 => .W2_WAGES
  | .W2_CORRECTED => .W2_WAGES
  | .W3 => .W2_WAGES
  | .FORM_1099_NEC => .NONEMPLOYEE_COMPENSATION
  | .FORM_1099_MISC => .BUSINESS_INCOME
  | .FORM_1099_INT => .INTEREST
  | .FORM_1099_DIV => .DIVIDENDS
  | .FORM_1099_G => .UNEMPLOYMENT
  | .FORM_1099_R => .RETIREMENT_DISTRIBUTIONS
  | .FORM_1099_K => .OTHER_INCOME
  | .FORM_1099_B => .PROCEEDS_FROM_BROKER
  | .FORM_1099_S => .PROCEEDS_FROM_REAL_ESTATE
  | .FORM_1099_A => .ACQUISITION_ABANDONMENT_SECURED_PROPERTY
  | .FORM_1099_C => .CANCELLATION_OF_DEBT
  | .FORM_1099_OID => .ORIGINAL_ISSUE_DISCOUNT
  | .FORM_1099_PATR => .TAXABLE_PATRONAGE_DIVIDENDS
  | .FORM_1099_Q => .QUALIFIED_EDUCATION_EXPENSES
  | .FORM_1099_SA => .ARCHER_MSA_DISTRIBUTIONS
  | .FORM_1098 => .OTHER_INCOME
  | .FORM_1098_E => .OTHER_INCOME
  | .FORM_1098_T => .OTHER_INCOME
  | .FORM_5498 => .OTHER_INCOME
  | .SCHEDULE_K1 => .BUSINESS_INCOME
  | .OTHER_TAX_DOCUMENT => .OTHER_INCOME
  | .RECEIPT => .OTHER_INCOME
  | .STATEMENT => .OTHER_INCOME
  | .UNKNOWN => .OTHER_INCOME

/-- One income-ledger entry produced by `convertToIncomeEntries`.  The
counterparty fields keep their raw `Value` form because the TypeScript
`as string` casts perform no runtime conversion. -/
structure IncomeEntry where
  taxReturnId : String
  incomeType : IncomeType
  description : String
  amount : Rat
  payerName : Value
  payerTIN : Value
  employerName : Value
  employerEIN : Value
deriving DecidableEq

/-- `Number(x) || 0`: the parsed number, with `NaN` (and `0` itself)
replaced by `0`. -/
def jsNumberOr0 (v : Value) : Rat :=
  match jsNumber v with
  | some q => q
  | none => 0

/-- `typeof v === 'number' && v > 0` (`NaN` compares false). -/
def isPositiveNumber : Value → Bool
  | .vNum q => decide (0 < q)
  | _ => false

/-- `Object.values(data).find(v => typeof v === 'number' && v > 0) || 0`:
the first positive numeric field value, else `0`. -/
def firstPositiveAmount (d : Row) : Rat :=
  match (d.map Prod.snd).find? isPositiveNumber with
  | some (Value.vNum q) => q
  | _ => 0

/-- The per-row body of `convertToIncomeEntries`
(`src/lib/data-processing.ts` lines 459-521): the base entry followed by
the form-specific switch. -/
def convertRow (formType : DocumentType) (taxReturnId : String)
    (d : Row) : IncomeEntry :=
  let baseEntry : IncomeEntry :=
    { taxReturnId := taxReturnId
      incomeType := getIncomeTypeFromForm formType
      description := "Imported from " ++ docTypeName formType
      amount := 0
      payerName := jsOr (rowGet d "payerName")
        (jsOr (rowGet d "employerName") (Value.vStr ""))
      payerTIN := jsOr (rowGet d "payerTIN")
        (jsOr (rowGet d "employerEIN") (Value.vStr ""))
      employerName := jsOr (rowGet d "employerName") (Value.vStr "")
      employerEIN := jsOr (rowGet d "employerEIN") (Value.vStr "") }
  match formType with
  | .W2 =>
      { baseEntry with
        incomeType := .W2_WAGES
        amount := jsNumberOr0 (rowGet d "wages")
        employerName := jsOr (rowGet d "employerName") (Value.vStr "")
        employerEIN := jsOr (rowGet d "employerEIN") (Value.vStr "") }
  | .FORM_1099_NEC =>
      { baseEntry with
        incomeType := .NONEMPLOYEE_COMPENSATION
        amount := jsNumberOr0 (rowGet d "nonemployeeCompensation")
        payerName := jsOr (rowGet d "payerName") (Value.vStr "")
        payerTIN := jsOr (rowGet d "payerTIN") (Value.vStr "") }
  | .FORM_1099_INT =>
      { baseEntry with
        incomeType := .INTEREST
        amount := jsNumberOr0 (rowGet d "interestIncome")
        payerName := jsOr (rowGet d "payerName") (Value.vStr "")
        payerTIN := jsOr (rowGet d "payerTIN") (Value.vStr "") }
  | .FORM_1099_DIV =>
      { baseEntry with
        incomeType := .DIVIDENDS
        amount := jsNumberOr0 (rowGet d "totalOrdinaryDividends")
        payerName := jsOr (rowGet d "payerName") (Value.vStr "")
        payerTIN := jsOr (rowGet d "payerTIN") (Value.vStr "") }
  | _ =>
      { baseEntry with amount := firstPositiveAmount d }

/-- `convertToIncomeEntries` (`src/lib/data-processing.ts` lines
459-521): a plain `map` of `convertRow` over the validated rows. -/
def convertToIncomeEntries (processedData : List Row)
    (formType : DocumentType) (taxReturnId : String) : List IncomeEntry :=
  processedData.map (convertRow formType taxReturnId)

/-- The parser result record (`UploadResult` in
`src/lib/data-processing.ts`), with the optional properties made
explicit. -/
structure UploadResult where
  success : Bool
  data : Option (List Row)
  headers : Option (List String)
  totalRows : Option Nat
  preview : Option (List Row)
  error : Option String
deriving DecidableEq

/-- A failure result carrying only an error message. -/
def failureResult (msg : String) : UploadResult :=
  ⟨false, none, none, none, none, some msg⟩

/-- `parseCSVFile` (`src/lib/data-processing.ts` lines 60-93) after the
external `Papa.parse` call, whose outcome is passed in: the parse error
messages, the parsed row objects and the discovered header fields. -/
def parseCSVFile (parseErrors : List String) (rows : List Row)
    (fields : List String) : UploadResult :=
  if parseErrors.length > 0 then
    failureResult ("CSV parsing errors: " ++ String.intercalate ", " parseErrors)
  else
    ⟨true, some rows, some fields, some rows.length, some (rows.take 5), none⟩

/-- `row[index] || null` on an Excel data row: a missing or falsy cell
becomes `null`. -/
def excelCellOrNull (row : List Value) (i : Nat) : Value :=
  match row.get? i with
  | some v => if jsTruthy v then v else Value.vNull
  | none => Value.vNull

/-- The row-to-object conversion of `parseExcelFile`: assign
`obj[header] = row[index] || null` for each header in order. -/
def excelRowToObject (headers : List String) (row : List Value) : Row :=
  headers.enum.foldl
    (fun obj p => objSet obj p.2 (excelCellOrNull row p.1)) []

/-- The blank-row filter of `parseExcelFile`:
`row.some(cell => cell !== null && cell !== undefined && cell !== '')`. -/
def excelNonEmptyRow (row : List Value) : Bool :=
  row.any (fun c => !(emptyVal c))

/-- `parseExcelFile` (`src/lib/data-processing.ts` lines 96-159) after
the external `XLSX.utils.sheet_to_json(..., {header: 1})` call, whose
row-of-cells output is passed in.  The `as string[]` cast of the header
row is modelled by `jsToString` (the headers are used as object keys). -/
def parseExcelFile (jsonData : List (List Value)) : UploadResult :=
  match jsonData with
  | [] => failureResult "Excel file appears to be empty"
  | headerRow :: rest =>
      let headers := headerRow.map jsToString
      let dataRows := rest.filter excelNonEmptyRow
      let objectData := dataRows.map (excelRowToObject headers)
      ⟨true, some objectData, some headers, some objectData.length,
        some (objectData.take 5), none⟩

/-- The shape of a parsed JSON document as far as `parseJSONFile`
inspects it: a top-level array of objects, a single top-level object, or
anything else (string, number, null...).  Array elements are modelled as
rows; only the first element's keys are ever read. -/
inductive JsonInput where
  | arr : List Row → JsonInput
  | obj : Row → JsonInput
  | other : JsonInput
deriving DecidableEq

/-- The success path of `parseJSONFile` once the data array is fixed. -/
def jsonSuccess (data : List Row) : UploadResult :=
  if data.length = 0 then failureResult "JSON file contains no data"
  else
    ⟨true, some data, some ((data.headD []).map Prod.fst),
      some data.length, some (data.take 5), none⟩

/-- `parseJSONFile` (`src/lib/data-processing.ts` lines 162-221) after
the external `JSON.parse` call: `none` models a parse exception, a
single object is wrapped into a one-row array, any non-array non-object
shape is a hard error. -/
def parseJSONFile (parsed : Option JsonInput) : UploadResult :=
  match parsed with
  | none => failureResult "JSON parsing error: Invalid JSON format"
  | some .other =>
      failureResult "JSON file must contain an array of objects or a single object"
  | some (.obj r) => jsonSuccess [r]
  | some (.arr rows) => jsonSuccess rows

/-- One backend response observed by one polling attempt of
`pollForResults` (`src/lib/simple-azure-service.ts`): either a non-OK
HTTP response with its status code, or an OK response whose JSON carries
an analysis status, an analysis result (abstracted as a string) and an
optional error message. -/
inductive PollResponse where
  | httpError : Nat → PollResponse
  | okJson : String → String → Option String → PollResponse
deriving DecidableEq

/-- The outcome of `pollForResults`: the returned analysis result, or
one of the three distinct thrown errors (polling HTTP error, analysis
failure, timeout). -/
inductive PollOutcome where
  | success : String → PollOutcome
  | pollingError : Nat → PollOutcome
  | analysisFailed : String → PollOutcome
  | timedOut : PollOutcome
deriving DecidableEq

/-- `maxAttempts` of `pollForResults`. -/
def maxAttempts : Nat := 30

/-- `pollInterval` of `pollForResults`, in milliseconds. -/
def pollInterval : Nat := 2000

/-- The polling loop of `pollForResults`, with the sequence of backend
responses passed in as `responses`.  Returns the outcome together with
the number of fetches performed.  A non-OK response throws; status
`succeeded` returns; status `failed` throws; any other status retries
after the fixed interval until the attempt budget is spent. -/
def pollFrom (responses : Nat → PollResponse) (attempt remaining : Nat) :
    PollOutcome × Nat :=
  match remaining with
  | 0 => (.timedOut, 0)
  | n + 1 =>
      match responses attempt with
      | .httpError code => (.pollingError code, 1)
      | .okJson status result errMsg =>
          if status = "succeeded" then (.success result, 1)
          else if status = "failed" then
            (.analysisFailed (errMsg.getD "Unknown error"), 1)
          else
            let rec' := pollFrom responses (attempt + 1) n
            (rec'.1, rec'.2 + 1)

/-- `pollForResults` (`src/lib/simple-azure-service.ts` lines 94-129):
run the polling loop from attempt 0 with the `maxAttempts` budget. -/
def pollForResults (responses : Nat → PollResponse) : PollOutcome × Nat :=
  pollFrom responses 0 maxAttempts

lemma objGet_append {α : Type} (l1 l2 : List (String × α)) (k : String) :
    objGet (l1 ++ l2) k =
      match objGet l1 k with
      | some v => some v
      | none => objGet l2 k := by
  induction l1 with
  | nil => simp [objGet]
  | cons p rest ih =>
      obtain ⟨k0, v0⟩ := p
      by_cases h : k0 = k
      · simp [objGet, h]
      · simp [objGet, h, ih]

lemma objGet_setMap_ne {α : Type} (m : List (String × α)) (k k' : String)
    (v : α) (h : k ≠ k') :
    objGet (m.map (fun p => if p.1 = k then (k, v) else p)) k' =
      objGet m k' := by
  induction m with
  | nil => rfl
  | cons p rest ih =>
      obtain ⟨k0, v0⟩ := p
      by_cases h0 : k0 = k
      · simp only [List.map_cons, h0, if_pos rfl]
        simp [objGet, h, h0, ih]
      · simp only [List.map_cons, if_neg h0]
        by_cases h1 : k0 = k'
        · simp [objGet, h1]
        · simp [objGet, h1, ih]

lemma objGet_setMap_self {α : Type} (m : List (String × α)) (k : String)
    (v : α) :
    objGet (m.map (fun p => if p.1 = k then (k, v) else p)) k =
      if m.any (fun p => p.1 = k) then some v else none := by
  induction m with
  | nil => rfl
  | cons p rest ih =>
      obtain ⟨k0, v0⟩ := p
      by_cases h0 : k0 = k
      · simp only [List.map_cons, h0, if_pos rfl]
        simp [objGet, List.any_cons]
      · simp only [List.map_cons, if_neg h0]
        simp only [objGet, if_neg h0, ih, List.any_cons]
        by_cases hr : (rest.any fun p => decide (p.1 = k)) = true
        · simp [hr, h0]
        · simp [hr, h0]

lemma objGet_objSet {α : Type} (m : List (String × α)) (k k' : String)
    (v : α) :
    objGet (objSet m k v) k' = if k = k' then some v else objGet m k' := by
  unfold objSet
  by_cases hany : m.any (fun p => p.1 = k)
  · simp only [if_pos hany]
    by_cases hk : k = k'
    · subst hk; rw [objGet_setMap_self, if_pos hany, if_pos rfl]
    · rw [objGet_setMap_ne m k k' v hk, if_neg hk]
  · simp only [if_neg hany]
    rw [objGet_append]
    by_cases hk : k = k'
    · subst hk
      have : objGet m k = none := by
        induction m with
        | nil => rfl
        | cons p rest ih =>
            obtain ⟨k0, v0⟩ := p
            simp only [List.any_cons, Bool.or_eq_true, decide_eq_true_eq,
              not_or] at hany
            simp [objGet, hany.1, ih (by simpa using hany.2)]
      simp [this, objGet]
    · simp only [if_neg hk]
      cases hm : objGet m k' with
      | none => simp [objGet, hk]
      | some w => simp

lemma objGet_objSet_self {α : Type} (m : List (String × α)) (k : String)
    (v : α) : objGet (objSet m k v) k = some v := by
  rw [objGet_objSet, if_pos rfl]

lemma objGet_objSet_ne {α : Type} (m : List (String × α)) (k k' : String)
    (v : α) (h : k ≠ k') : objGet (objSet m k v) k' = objGet m k' := by
  rw [objGet_objSet, if_neg h]

/-- Claim C1 (code bug): `validateFormData` coerces the string "no"
for a boolean-typed field to `true`, because the coercion starts with
JavaScript truthiness (`Boolean(value)`) which is `true` for every
non-empty string; the subsequent comparisons with "true"/"yes"/"1" are
unreachable.  The claim (and the spec) state such values coerce to
`false`.  No validation error is emitted, as the claim also states. -/
theorem c1_boolean_coercion_truthiness :
    coerceBoolean (Value.vStr "no") = true
    ∧ coerceBoolean (Value.vStr "false") = true
    ∧ coerceBoolean (Value.vStr "0") = true
    ∧ validateFormData (fun _ => none) [[("col", Value.vStr "no")]]
        [⟨"flag", "Flag", FieldType.boolean, false⟩] [("col", "flag")]
      = ⟨true, 1, [], [[("flag", Value.vBool true)]]⟩ := by
  refine ⟨by decide, by decide, by decide, by decide⟩

/-- Claim C3, counterexample: starting from the empty mapping, two
set-mapping operations assign the same target field "wages" to the two
distinct source columns "colA" and "colB"; the second assignment is
accepted silently (the operation has no error path), so the reachable
state is not injective on target fields. -/
theorem c3_counterexample :
    objGet (updateFieldMapping (updateFieldMapping [] "wages" "colA")
        "wages" "colB") "colA" = some "wages"
    ∧ objGet (updateFieldMapping (updateFieldMapping [] "wages" "colA")
        "wages" "colB") "colB" = some "wages"
    ∧ ("colA" : String) ≠ "colB" := by
  refine ⟨by decide, by decide, by decide⟩

/-- Claim C3, amended: `updateFieldMapping` is an unconditional
last-write-wins assignment for the given source column and leaves every
other source column untouched; in particular a target field already
assigned to a different source column is accepted without any error, so
the mapping is not kept injective on target fields. -/
theorem c3_update_mapping_last_write_wins :
    ∀ (m : StrMap) (t s s' : String), s' ≠ s → objGet m s' = some t →
      objGet (updateFieldMapping m t s) s = some t
      ∧ objGet (updateFieldMapping m t s) s' = some t := by
  intro m t s s' hne hm
  constructor
  · exact objGet_objSet_self m s t
  · rw [updateFieldMapping, objGet_objSet_ne m s s' t (fun h => hne h.symm)]
    exact hm

/-- Witness for `c3_update_mapping_last_write_wins` at a concrete
mapping. -/
theorem c3_update_mapping_last_write_wins_witness :
    (("colA" : String) ≠ "colB")
    ∧ objGet ([("colA", "wages")] : StrMap) "colA" = some "wages"
    ∧ (objGet (updateFieldMapping [("colA", "wages")] "wages" "colB")
          "colB" = some "wages"
        ∧ objGet (updateFieldMapping [("colA", "wages")] "wages" "colB")
          "colA" = some "wages") := by
  refine ⟨by decide, by decide,
    c3_update_mapping_last_write_wins [("colA", "wages")] "wages" "colB"
      "colA" (by decide) (by decide)⟩

/-- Whether one polled backend response reports an analysis that is
neither succeeded nor failed (the retry case of the loop). -/
def stillRunning : PollResponse → Bool
  | .httpError _ => false
  | .okJson st _ _ => decide (st ≠ "succeeded") && decide (st ≠ "failed")

lemma pollFrom_count_le (responses : Nat → PollResponse) :
    ∀ remaining attempt, (pollFrom responses attempt remaining).2 ≤ remaining := by
  intro remaining
  induction remaining with
  | zero => intro attempt; simp [pollFrom]
  | succ n ih =>
      intro attempt
      unfold pollFrom
      cases responses attempt with
      | httpError code => simp
      | okJson st res em =>
          by_cases h1 : st = "succeeded"
          · simp [h1]
          · by_cases h2 : st = "failed"
            · simp [h1, h2]
            · simp only [if_neg h1, if_neg h2]
              exact Nat.succ_le_succ (ih (attempt + 1))

lemma pollFrom_timeout (responses : Nat → PollResponse) :
    ∀ remaining attempt,
      (∀ i, attempt ≤ i → i < attempt + remaining →
        stillRunning (responses i) = true) →
      pollFrom responses attempt remaining = (.timedOut, remaining) := by
  intro remaining
  induction remaining with
  | zero => intro attempt _; rfl
  | succ n ih =>
      intro attempt h
      have hcur := h attempt (Nat.le_refl _) (by omega)
      unfold pollFrom
      cases hr : responses attempt with
      | httpError code => rw [hr] at hcur; simp [stillRunning] at hcur
      | okJson st res em =>
          rw [hr] at hcur
          simp only [stillRunning, Bool.and_eq_true, decide_eq_true_eq] at hcur
          simp only [if_neg hcur.1, if_neg hcur.2]
          rw [ih (attempt + 1) (fun i hi1 hi2 => h i (by omega) (by omega))]

/-- Claim C9: the polling loop of `pollForResults` performs at most 30
fetch attempts at a fixed 2000 ms interval, and whenever no attempt
observes status `succeeded` or `failed`, it stops with a timeout after
exactly the 30th attempt. -/
theorem c9_polling_bounded :
    maxAttempts = 30
    ∧ pollInterval = 2000
    ∧ (∀ responses : Nat → PollResponse, (pollForResults responses).2 ≤ 30)
    ∧ (∀ responses : Nat → PollResponse,
        (∀ i, i < 30 → stillRunning (responses i) = true) →
        pollForResults responses = (PollOutcome.timedOut, 30)) := by
  refine ⟨rfl, rfl, ?_, ?_⟩
  · intro responses
    exact pollFrom_count_le responses maxAttempts 0
  · intro responses h
    exact pollFrom_timeout responses maxAttempts 0
      (fun i _ hi => h i (by simpa [maxAttempts] using hi))

/-- Witness for `c9_polling_bounded` on a backend that always reports
status `running`. -/
theorem c9_polling_bounded_witness :
    (∀ i, i < 30 →
      stillRunning ((fun _ => PollResponse.okJson "running" "" none) i) = true)
    ∧ pollForResults (fun _ => PollResponse.okJson "running" "" none)
        = (PollOutcome.timedOut, 30) := by
  refine ⟨fun i _ => ?_, ?_⟩
  · show stillRunning (PollResponse.okJson "running" "" none) = true
    decide
  · exact c9_polling_bounded.2.2.2
      (fun _ => PollResponse.okJson "running" "" none)
      (fun i _ => by
        show stillRunning (PollResponse.okJson "running" "" none) = true
        decide)

lemma objGet_mapGetD (a b : StrMap) (k : String) :
    objGet (a.map (fun p => (p.1, (objGet b p.1).getD p.2))) k =
      (objGet a k).map (fun v => (objGet b k).getD v) := by
  induction a with
  | nil => rfl
  | cons p rest ih =>
      obtain ⟨k0, v0⟩ := p
      by_cases h0 : k0 = k
      · subst h0; simp [objGet]
      · simp [objGet, h0, ih]

lemma objGet_filterNone (a b : StrMap) (k : String) :
    objGet (b.filter (fun p => (objGet a p.1).isNone)) k =
      if objGet a k = none then objGet b k else none := by
  induction b with
  | nil => cases h : objGet a k <;> simp [objGet, h]
  | cons p rest ih =>
      obtain ⟨k1, v1⟩ := p
      by_cases h1 : (objGet a k1).isNone = true
      · rw [List.filter_cons_of_pos (by simpa using h1)]
        by_cases hk : k1 = k
        · subst hk
          rw [Option.isNone_iff_eq_none] at h1
          simp [objGet, h1]
        · simp [objGet, hk, ih]
      · rw [List.filter_cons_of_neg (by simpa using h1)]
        by_cases hk : k1 = k
        · subst hk
          rw [Option.isNone_iff_eq_none] at h1
          simp [objGet, h1, ih]
        · simp [objGet, hk, ih]

lemma objGet_spreadMerge (a b : StrMap) (k : String) :
    objGet (spreadMerge a b) k =
      match objGet b k with
      | some v => some v
      | none => objGet a k := by
  unfold spreadMerge
  rw [objGet_append]
  cases hb : objGet b k with
  | some v =>
      cases ha : objGet a k with
      | some w => simp [objGet_mapGetD, ha, hb]
      | none => simp [objGet_mapGetD, objGet_filterNone, ha, hb]
  | none =>
      cases ha : objGet a k with
      | some w => simp [objGet_mapGetD, ha, hb]
      | none => simp [objGet_mapGetD, objGet_filterNone, ha, hb]

/-- Claim C2, counterexample: a backend field map supplying
`wages = "500"` (fewer than 3 fields, OCR text available) merged with a
regex fallback whose wage pattern matched `45,200.00` yields
`wages = "45200"` — the fallback value replaced the one the backend
already supplied, so the merge does not keep the backend value. -/
theorem c2_counterexample :
    objGet (enhanceWithFallback [("wages", "500")] "W2 OCR TEXT"
      ⟨[], none, some "45,200.00", none, none, none⟩) "wages" = some "45200"
    ∧ objGet ([("wages", "500")] : StrMap) "wages" = some "500"
    ∧ ("45200" : String) ≠ "500" := by
  refine ⟨by decide, by decide, by decide⟩

/-- Claim C2, amended: when the backend map has fewer than 3 fields and
OCR text is available, the spread merge gives the regex fallback
priority — a field the fallback extracted ends up with the fallback's
value, and the backend's value survives only for fields the fallback
did not extract. -/
theorem c2_merge_fallback_priority :
    ∀ (backend : StrMap) (ocrText : String) (m : FallbackMatches)
      (k : String),
      backend.length < 3 → ocrText ≠ "" →
      (objGet (performFallbackExtraction m) k = none →
        objGet (enhanceWithFallback backend ocrText m) k = objGet backend k)
      ∧ (∀ v, objGet (performFallbackExtraction m) k = some v →
        objGet (enhanceWithFallback backend ocrText m) k = some v) := by
  intro backend ocrText m k hlen hocr
  have hcond : backend.length < 3 ∧ ocrText ≠ "" := ⟨hlen, hocr⟩
  constructor
  · intro hnone
    rw [enhanceWithFallback, if_pos hcond, objGet_spreadMerge, hnone]
  · intro v hsome
    rw [enhanceWithFallback, if_pos hcond, objGet_spreadMerge, hsome]

/-- Witness for `c2_merge_fallback_priority` at the concrete merge of
`c2_counterexample` and at a key the fallback does not produce. -/
theorem c2_merge_fallback_priority_witness :
    (([("wages", "500")] : StrMap).length < 3 ∧ ("W2 OCR TEXT" : String) ≠ "")
    ∧ objGet (performFallbackExtraction
        ⟨[], none, some "45,200.00", none, none, none⟩) "employerEIN" = none
    ∧ objGet (enhanceWithFallback [("wages", "500")] "W2 OCR TEXT"
        ⟨[], none, some "45,200.00", none, none, none⟩) "employerEIN"
      = objGet ([("wages", "500")] : StrMap) "employerEIN"
    ∧ objGet (performFallbackExtraction
        ⟨[], none, some "45,200.00", none, none, none⟩) "wages" = some "45200"
    ∧ objGet (enhanceWithFallback [("wages", "500")] "W2 OCR TEXT"
        ⟨[], none, some "45,200.00", none, none, none⟩) "wages"
      = some "45200" := by
  have h := c2_merge_fallback_priority [("wages", "500")] "W2 OCR TEXT"
    ⟨[], none, some "45,200.00", none, none, none⟩ "employerEIN"
    (by decide) (by decide)
  have h2 := c2_merge_fallback_priority [("wages", "500")] "W2 OCR TEXT"
    ⟨[], none, some "45,200.00", none, none, none⟩ "wages"
    (by decide) (by decide)
  exact ⟨⟨by decide, by decide⟩, by decide, h.1 (by decide), by decide,
    h2.2 "45200" (by decide)⟩

/-- Claim C6, counterexample: `extractDataFromText` (the text-based
fallback extractor of the document-processing route) records a matched
wages amount of `999` verbatim — it applies no `[1000, 1000000]` bound,
so the wages field is not left unset on an out-of-bound match. -/
theorem c6_counterexample :
    objGet (extractDataFromText ⟨none, none, some "999", none, none, none,
      none, none⟩) "wages" = some "999" := by decide

lemma objGet_setOptional_ne {α : Type} (d : StrMap) (key : String)
    (o : Option α) (f : α → String) (k : String) (h : key ≠ k) :
    objGet (setOptional d key o f) k = objGet d k := by
  cases o with
  | none => rfl
  | some x => exact objGet_objSet_ne d key k (f x) h

lemma objGet_setBoundedAmount_ne (d : StrMap) (key : String)
    (o : Option String) (lo hi : Rat) (k : String) (h : key ≠ k) :
    objGet (setBoundedAmount d key o lo hi) k = objGet d k := by
  cases o with
  | none => rfl
  | some s =>
      rcases hp : parseFloatJS (stripCommas s) with _ | amount
      · simp only [setBoundedAmount, hp]
      · by_cases hb : lo ≤ amount ∧ amount ≤ hi
        · simp only [setBoundedAmount, hp, if_pos hb]
          exact objGet_objSet_ne d key k (ratToString amount) h
        · simp only [setBoundedAmount, hp, if_neg hb]

lemma objGet_setBoundedAmount_out (d : StrMap) (key : String)
    (s : String) (a : Rat) (lo hi : Rat) (k : String)
    (hp : parseFloatJS (stripCommas s) = some a) (hb : ¬(lo ≤ a ∧ a ≤ hi)) :
    objGet (setBoundedAmount d key (some s) lo hi) k = objGet d k := by
  simp only [setBoundedAmount, hp, if_neg hb]

lemma objGet_setBoundedAmount_in (d : StrMap) (key : String)
    (s : String) (a : Rat) (lo hi : Rat)
    (hp : parseFloatJS (stripCommas s) = some a) (hb : lo ≤ a ∧ a ≤ hi) :
    objGet (setBoundedAmount d key (some s) lo hi) key
      = some (ratToString a) := by
  simp only [setBoundedAmount, hp, if_pos hb]
  exact objGet_objSet_self d key (ratToString a)

/-- Claim C6, amended: the `[1000, 1000000]` wage bound is enforced by
`performFallbackExtraction` (the part_001 extractor): an out-of-bound
matched amount leaves `wages` unset and an in-bound one records
`amount.toString()`.  The second extractor, `extractDataFromText` in the
document-processing route, records any matched wages amount with no
bound check at all. -/
theorem c6_wage_bounds :
    ∀ (m : FallbackMatches) (s : String) (a : Rat),
      m.wageMatch = some s → parseFloatJS (stripCommas s) = some a →
      ((¬(1000 ≤ a ∧ a ≤ 1000000)) →
        objGet (performFallbackExtraction m) "wages" = none)
      ∧ ((1000 ≤ a ∧ a ≤ 1000000) →
        objGet (performFallbackExtraction m) "wages"
          = some (ratToString a))
      ∧ (∀ tm : TextMatches, tm.wagesMatch = some s →
        objGet (extractDataFromText tm) "wages" = some (stripCommas s)) := by
  intro m s a hw hp
  refine ⟨?_, ?_, ?_⟩
  · intro hb
    unfold performFallbackExtraction
    rw [objGet_setOptional_ne _ _ _ _ _ (by decide),
      objGet_setOptional_ne _ _ _ _ _ (by decide),
      objGet_setBoundedAmount_ne _ _ _ _ _ _ (by decide),
      hw, objGet_setBoundedAmount_out _ _ _ a _ _ _ hp hb,
      objGet_setOptional_ne _ _ _ _ _ (by decide),
      objGet_setOptional_ne _ _ _ _ _ (by decide)]
    rfl
  · intro hb
    unfold performFallbackExtraction
    rw [objGet_setOptional_ne _ _ _ _ _ (by decide),
      objGet_setOptional_ne _ _ _ _ _ (by decide),
      objGet_setBoundedAmount_ne _ _ _ _ _ _ (by decide),
      hw, objGet_setBoundedAmount_in _ _ _ a _ _ hp hb]
  · intro tm htm
    unfold extractDataFromText
    rw [objGet_setOptional_ne _ _ _ _ _ (by decide),
      objGet_setOptional_ne _ _ _ _ _ (by decide),
      objGet_setOptional_ne _ _ _ _ _ (by decide),
      objGet_setOptional_ne _ _ _ _ _ (by decide),
      objGet_setOptional_ne _ _ _ _ _ (by decide),
      htm]
    exact objGet_objSet_self _ "wages" (stripCommas s)

/-- Witness for `c6_wage_bounds` at the concrete out-of-bound match
`999` and the in-bound match `45,200.00`. -/
theorem c6_wage_bounds_witness :
    parseFloatJS (stripCommas "999") = some 999
    ∧ ¬((1000 : Rat) ≤ 999 ∧ (999 : Rat) ≤ 1000000)
    ∧ objGet (performFallbackExtraction
        ⟨[], none, some "999", none, none, none⟩) "wages" = none
    ∧ parseFloatJS (stripCommas "45,200.00") = some 45200
    ∧ objGet (performFallbackExtraction
        ⟨[], none, some "45,200.00", none, none, none⟩) "wages"
      = some (ratToString 45200) := by
  refine ⟨by decide, by decide, ?_, by decide, ?_⟩
  · exact (c6_wage_bounds ⟨[], none, some "999", none, none, none⟩ "999" 999
      rfl (by decide)).1 (by decide)
  · exact (c6_wage_bounds ⟨[], none, some "45,200.00", none, none, none⟩
      "45,200.00" 45200 rfl (by decide)).2.1 (by decide)

/-- Claim C7: `convertToIncomeEntries` produces exactly one entry per
validated row, in input order (it is a plain `map`); for the four
document types with a designated amount field, a missing or non-numeric
amount (`Number` gives `NaN`) still yields an entry, with amount `0`;
for every other document type the amount is the first positive numeric
field value of the row, else `0`. -/
theorem c7_one_entry_per_row :
    ∀ (data : List Row) (ft : DocumentType) (id' : String),
      (convertToIncomeEntries data ft id').length = data.length
      ∧ (∀ i : Nat, (convertToIncomeEntries data ft id')[i]?
          = (data[i]?).map (convertRow ft id'))
      ∧ (∀ row, jsNumber (rowGet row "wages") = none →
          (convertRow DocumentType.W2 id' row).amount = 0)
      ∧ (∀ row, jsNumber (rowGet row "nonemployeeCompensation") = none →
          (convertRow DocumentType.FORM_1099_NEC id' row).amount = 0)
      ∧ (∀ row, jsNumber (rowGet row "interestIncome") = none →
          (convertRow DocumentType.FORM_1099_INT id' row).amount = 0)
      ∧ (∀ row, jsNumber (rowGet row "totalOrdinaryDividends") = none →
          (convertRow DocumentType.FORM_1099_DIV id' row).amount = 0)
      ∧ (ft ≠ DocumentType.W2 → ft ≠ DocumentType.FORM_1099_NEC →
          ft ≠ DocumentType.FORM_1099_INT → ft ≠ DocumentType.FORM_1099_DIV →
          ∀ row, (convertRow ft id' row).amount = firstPositiveAmount row) := by
  intro data ft id'
  refine ⟨?_, ?_, ?_, ?_, ?_, ?_, ?_⟩
  · exact List.length_map data (convertRow ft id')
  · intro i
    exact List.getElem?_map (convertRow ft id') data i
  · intro row h
    simp [convertRow, jsNumberOr0, h]
  · intro row h
    simp [convertRow, jsNumberOr0, h]
  · intro row h
    simp [convertRow, jsNumberOr0, h]
  · intro row h
    simp [convertRow, jsNumberOr0, h]
  · intro h1 h2 h3 h4 row
    cases ft <;> first
      | exact absurd rfl h1
      | exact absurd rfl h2
      | exact absurd rfl h3
      | exact absurd rfl h4
      | rfl

/-- Witness for `c7_one_entry_per_row` at a concrete row whose wages
field is the non-numeric string "abc", and at the `UNKNOWN` document
type with a first positive numeric value. -/
theorem c7_one_entry_per_row_witness :
    jsNumber (rowGet [("wages", Value.vStr "abc")] "wages") = none
    ∧ (convertRow DocumentType.W2 "tr1"
        [("wages", Value.vStr "abc")]).amount = 0
    ∧ (convertRow DocumentType.UNKNOWN "tr1"
        [("x", Value.vStr "y"), ("amt", Value.vNum 250)]).amount
      = firstPositiveAmount [("x", Value.vStr "y"), ("amt", Value.vNum 250)] := by
  have h := c7_one_entry_per_row [[("wages", Value.vStr "abc")]]
    DocumentType.UNKNOWN "tr1"
  refine ⟨by decide, ?_, ?_⟩
  · exact h.2.2.1 [("wages", Value.vStr "abc")] (by decide)
  · exact h.2.2.2.2.2.2 (by decide) (by decide) (by decide) (by decide)
      [("x", Value.vStr "y"), ("amt", Value.vNum 250)]

/-- Claim C8: every successful result of the CSV, Excel and JSON
parsers reports `totalRows` equal to the length of its parsed data and a
`preview` equal to the first `min(N, 5)` rows of that data. -/
theorem c8_parser_counts :
    (∀ (errs : List String) (rows : List Row) (fields : List String),
      (parseCSVFile errs rows fields).success = true →
      (parseCSVFile errs rows fields).data = some rows
      ∧ (parseCSVFile errs rows fields).totalRows = some rows.length
      ∧ (parseCSVFile errs rows fields).preview = some (rows.take 5)
      ∧ (rows.take 5).length = min rows.length 5)
    ∧ (∀ jsonData : List (List Value),
      (parseExcelFile jsonData).success = true →
      ∃ od : List Row, (parseExcelFile jsonData).data = some od
      ∧ (parseExcelFile jsonData).totalRows = some od.length
      ∧ (parseExcelFile jsonData).preview = some (od.take 5)
      ∧ (od.take 5).length = min od.length 5)
    ∧ (∀ parsed : Option JsonInput,
      (parseJSONFile parsed).success = true →
      ∃ rows : List Row, (parseJSONFile parsed).data = some rows
      ∧ (parseJSONFile parsed).totalRows = some rows.length
      ∧ (parseJSONFile parsed).preview = some (rows.take 5)
      ∧ (rows.take 5).length = min rows.length 5) := by
  refine ⟨?_, ?_, ?_⟩
  · intro errs rows fields h
    cases errs with
    | nil =>
        refine ⟨rfl, rfl, rfl, ?_⟩
        rw [List.length_take]
        exact Nat.min_comm _ _
    | cons e es => simp [parseCSVFile, failureResult] at h
  · intro jsonData h
    cases jsonData with
    | nil => simp [parseExcelFile, failureResult] at h
    | cons headerRow rest =>
        refine ⟨(rest.filter excelNonEmptyRow).map
          (excelRowToObject (headerRow.map jsToString)), rfl, rfl, rfl, ?_⟩
        rw [List.length_take]
        exact Nat.min_comm _ _
  · intro parsed h
    have hj : ∀ data : List Row, (jsonSuccess data).success = true →
        ∃ rows : List Row, (jsonSuccess data).data = some rows
        ∧ (jsonSuccess data).totalRows = some rows.length
        ∧ (jsonSuccess data).preview = some (rows.take 5)
        ∧ (rows.take 5).length = min rows.length 5 := by
      intro data hd
      by_cases hlen : data.length = 0
      · simp [jsonSuccess, hlen, failureResult] at hd
      · refine ⟨data, ?_, ?_, ?_, ?_⟩
        · simp only [jsonSuccess, if_neg hlen]
        · simp only [jsonSuccess, if_neg hlen]
        · simp only [jsonSuccess, if_neg hlen]
        · rw [List.length_take]
          exact Nat.min_comm _ _
    cases parsed with
    | none => exact absurd h (by decide)
    | some input =>
        cases input with
        | arr rows => exact hj rows h
        | obj r => exact hj [r] h
        | other => simp [parseJSONFile, failureResult] at h

/-- Witness for `c8_parser_counts` on a successful seven-row CSV parse,
a three-row Excel sheet and a two-row JSON array. -/
theorem c8_parser_counts_witness :
    (parseCSVFile [] [[], [], [], [], [], [], []] ["h"]).success = true
    ∧ (parseCSVFile [] [[], [], [], [], [], [], []] ["h"]).totalRows = some 7
    ∧ (parseCSVFile [] [[], [], [], [], [], [], []] ["h"]).preview
      = some [[], [], [], [], []]
    ∧ (parseExcelFile [[Value.vStr "h"], [Value.vNum 1], [Value.vNum 2]]).success
      = true
    ∧ (parseJSONFile (some (JsonInput.arr [[("a", Value.vNum 1)],
        [("a", Value.vNum 2)]]))).totalRows = some 2 := by
  have h1 := c8_parser_counts.1 [] [[], [], [], [], [], [], []] ["h"]
    (by decide)
  have h3 := c8_parser_counts.2.2 (some (JsonInput.arr [[("a", Value.vNum 1)],
    [("a", Value.vNum 2)]])) (by decide)
  refine ⟨by decide, ?_, ?_, by decide, ?_⟩
  · exact h1.2.1
  · exact h1.2.2.1
  · obtain ⟨rows, hdata, htot, hprev, hlen⟩ := h3
    have : rows = [[("a", Value.vNum 1)], [("a", Value.vNum 2)]] := by
      have := hdata
      simp only [parseJSONFile, jsonSuccess] at this
      by_cases hl : ([[("a", Value.vNum 1)], [("a", Value.vNum 2)]] : List Row).length = 0
      · simp at hl
      · rw [if_neg hl] at this
        exact (Option.some_inj.mp this).symm
    rw [htot, this]
    rfl

/-- The validation errors contributed by one mapping pair on one row
(the pushes performed by `processPair`). -/
def pairErrors (dateParse : Value → Option Int)
    (template : List FormField) (row : Row) (index : Nat)
    (pair : String × String) : List ValidationError :=
  match template.find? (fun f => f.name = pair.2) with
  | none => []
  | some formField =>
      let value := rowGet row pair.1
      if formField.required && emptyVal value then
        [⟨index + 1, pair.2,
          "Required field " ++ formField.label ++ " is missing", value⟩]
      else if emptyVal value then []
      else (coerceTyped dateParse formField index pair.2 value).2

lemma processPair_rowErrors (dp : Value → Option Int)
    (tpl : List FormField) (row : Row) (idx : Nat) (st : RowState)
    (pr : String × String) :
    (processPair dp tpl row idx st pr).rowErrors
      = st.rowErrors ++ pairErrors dp tpl row idx pr := by
  unfold processPair pairErrors
  cases tpl.find? (fun f => f.name = pr.2) with
  | none => simp
  | some formField =>
      by_cases hre : formField.required && emptyVal (rowGet row pr.1)
      · simp [hre]
      · by_cases hempty : emptyVal (rowGet row pr.1)
        · have hreq : formField.required = false := by
            simpa [hempty] using hre
          simp [hreq, hempty]
        · simp [hre, hempty]

lemma processPair_hasErrors (dp : Value → Option Int)
    (tpl : List FormField) (row : Row) (idx : Nat) (st : RowState)
    (pr : String × String) :
    (processPair dp tpl row idx st pr).hasErrors
      = (st.hasErrors || !(pairErrors dp tpl row idx pr).isEmpty) := by
  unfold processPair pairErrors
  cases tpl.find? (fun f => f.name = pr.2) with
  | none => simp
  | some formField =>
      by_cases hre : formField.required && emptyVal (rowGet row pr.1)
      · simp [hre]
      · by_cases hempty : emptyVal (rowGet row pr.1)
        · have hreq : formField.required = false := by
            simpa [hempty] using hre
          simp [hreq, hempty]
        · simp [hre, hempty]

lemma processPair_processedRow_of_empty (dp : Value → Option Int)
    (tpl : List FormField) (row : Row) (idx : Nat) (st : RowState)
    (pr : String × String)
    (h : tpl.find? (fun f => f.name = pr.2) = none) :
    processPair dp tpl row idx st pr = st := by
  unfold processPair
  rw [h]

lemma foldl_processPair_rowErrors (dp : Value → Option Int)
    (tpl : List FormField) (row : Row) (idx : Nat) :
    ∀ (pairs : StrMap) (st : RowState),
      (pairs.foldl (processPair dp tpl row idx) st).rowErrors
        = st.rowErrors
          ++ (pairs.map (pairErrors dp tpl row idx)).flatten := by
  intro pairs
  induction pairs with
  | nil => intro st; simp
  | cons pr rest ih =>
      intro st
      rw [List.foldl_cons, ih, processPair_rowErrors]
      simp [List.append_assoc]

lemma foldl_processPair_hasErrors (dp : Value → Option Int)
    (tpl : List FormField) (row : Row) (idx : Nat) :
    ∀ (pairs : StrMap) (st : RowState),
      (pairs.foldl (processPair dp tpl row idx) st).hasErrors
        = (st.hasErrors
            || pairs.any (fun pr => !(pairErrors dp tpl row idx pr).isEmpty)) := by
  intro pairs
  induction pairs with
  | nil => intro st; simp
  | cons pr rest ih =>
      intro st
      rw [List.foldl_cons, ih, processPair_hasErrors]
      simp [Bool.or_assoc]

lemma processRow_rowErrors (dp : Value → Option Int)
    (tpl : List FormField) (mp : StrMap) (row : Row) (idx : Nat) :
    (processRow dp tpl mp row idx).rowErrors
      = (mp.map (pairErrors dp tpl row idx)).flatten := by
  unfold processRow
  rw [foldl_processPair_rowErrors]
  rfl

lemma processRow_hasErrors (dp : Value → Option Int)
    (tpl : List FormField) (mp : StrMap) (row : Row) (idx : Nat) :
    (processRow dp tpl mp row idx).hasErrors
      = mp.any (fun pr => !(pairErrors dp tpl row idx pr).isEmpty) := by
  unfold processRow
  rw [foldl_processPair_hasErrors]
  rfl

lemma flatten_map_isEmpty {α β : Type} (l : List α) (f : α → List β) :
    ((l.map f).flatten).isEmpty = l.all (fun x => (f x).isEmpty) := by
  induction l with
  | nil => rfl
  | cons x rest ih =>
      simp only [List.map_cons, List.flatten_cons, List.all_cons, ← ih]
      cases hx : (f x) with
      | nil => simp
      | cons y ys => simp

lemma processRow_hasErrors_eq_not_isEmpty (dp : Value → Option Int)
    (tpl : List FormField) (mp : StrMap) (row : Row) (idx : Nat) :
    (processRow dp tpl mp row idx).hasErrors
      = !(processRow dp tpl mp row idx).rowErrors.isEmpty := by
  rw [processRow_hasErrors, processRow_rowErrors, flatten_map_isEmpty]
  induction mp with
  | nil => rfl
  | cons pr rest ih => simp [List.any_cons, List.all_cons, ih]

lemma coerceTyped_errors (dp : Value → Option Int) (f : FormField)
    (idx : Nat) (t : String) (v : Value) :
    ∀ e ∈ (coerceTyped dp f idx t v).2, e.row = idx + 1 ∧ e.field = t := by
  intro e he
  unfold coerceTyped at he
  rcases hft : f.ftype
  case number =>
      rw [hft] at he
      rcases h : jsNumber v with _ | q
      · rw [h] at he
        simp at he
        rw [he]
        exact ⟨rfl, rfl⟩
      · rw [h] at he
        simp at he
  case decimal =>
      rw [hft] at he
      rcases h : parseFloatJS (stripDollarComma (jsToString v)) with _ | q
      · rw [h] at he
        simp at he
        rw [he]
        exact ⟨rfl, rfl⟩
      · rw [h] at he
        simp at he
  case boolean =>
      rw [hft] at he
      simp at he
  case text =>
      rw [hft] at he
      simp at he
  case date =>
      rw [hft] at he
      rcases h : dp v with _ | tv
      · rw [h] at he
        simp at he
        rw [he]
        exact ⟨rfl, rfl⟩
      · rw [h] at he
        simp at he
  case select =>
      rw [hft] at he
      simp at he

lemma pairErrors_mem (dp : Value → Option Int) (tpl : List FormField)
    (row : Row) (idx : Nat) (pr : String × String) :
    ∀ e ∈ pairErrors dp tpl row idx pr, e.row = idx + 1 ∧ e.field = pr.2 := by
  intro e he
  rcases hf : tpl.find? (fun f => f.name = pr.2) with _ | formField
  · simp [pairErrors, hf] at he
  · simp only [pairErrors, hf] at he
    by_cases hre : formField.required && emptyVal (rowGet row pr.1)
    · rw [if_pos hre] at he
      simp at he
      rw [he]
      exact ⟨rfl, rfl⟩
    · rw [if_neg hre] at he
      by_cases hempty : emptyVal (rowGet row pr.1)
      · rw [if_pos hempty] at he; simp at he
      · rw [if_neg hempty] at he
        exact coerceTyped_errors dp formField idx pr.2 _ e he

lemma validateFormData_errors_eq (dp : Value → Option Int)
    (data : List Row) (tpl : List FormField) (mp : StrMap) :
    (validateFormData dp data tpl mp).errors
      = (data.enum.map
          (fun p => (processRow dp tpl mp p.2 p.1).rowErrors)).flatten := by
  unfold validateFormData
  simp [List.map_map]
  rfl

lemma validateFormData_data_eq (dp : Value → Option Int)
    (data : List Row) (tpl : List FormField) (mp : StrMap) :
    (validateFormData dp data tpl mp).data
      = ((data.enum.map (fun p => processRow dp tpl mp p.2 p.1)).filter
          (fun st => st.rowErrors.isEmpty)).map RowState.processedRow := by
  unfold validateFormData
  simp only
  congr 1
  apply List.filter_congr
  intro st hst
  obtain ⟨p, _, hp⟩ := List.mem_map.mp hst
  rw [← hp, processRow_hasErrors_eq_not_isEmpty, Bool.not_not]

/-- Claim C4: the validated-row output of `validateFormData` is exactly
the processed forms of the rows that produced zero errors, in input
order (failing rows never withhold the passing ones); the error list is
the concatenation of the per-row error lists in input order; and every
error carries the 1-based index of its originating row, hence a row
number between 1 and the input length. -/
theorem c4_partial_success :
    ∀ (dp : Value → Option Int) (data : List Row) (tpl : List FormField)
      (mp : StrMap),
      (validateFormData dp data tpl mp).data
        = ((data.enum.map (fun p => processRow dp tpl mp p.2 p.1)).filter
            (fun st => st.rowErrors.isEmpty)).map RowState.processedRow
      ∧ (validateFormData dp data tpl mp).errors
        = (data.enum.map
            (fun p => (processRow dp tpl mp p.2 p.1).rowErrors)).flatten
      ∧ (∀ i : Nat, ∀ row : Row, data[i]? = some row →
          ∀ e ∈ (processRow dp tpl mp row i).rowErrors, e.row = i + 1)
      ∧ (∀ e ∈ (validateFormData dp data tpl mp).errors,
          ∃ i : Nat, ∃ row : Row, data[i]? = some row
            ∧ e ∈ (processRow dp tpl mp row i).rowErrors
            ∧ 1 ≤ e.row ∧ e.row ≤ data.length) := by
  intro dp data tpl mp
  have hnum : ∀ i : Nat, ∀ row : Row,
      ∀ e ∈ (processRow dp tpl mp row i).rowErrors, e.row = i + 1 := by
    intro i row e he
    rw [processRow_rowErrors] at he
    obtain ⟨l, hl, hel⟩ := List.mem_flatten.mp he
    obtain ⟨pr, _, hpr⟩ := List.mem_map.mp hl
    rw [← hpr] at hel
    exact (pairErrors_mem dp tpl row i pr e hel).1
  refine ⟨validateFormData_data_eq dp data tpl mp,
    validateFormData_errors_eq dp data tpl mp,
    fun i row _ => hnum i row, ?_⟩
  intro e he
  rw [validateFormData_errors_eq] at he
  obtain ⟨l, hl, hel⟩ := List.mem_flatten.mp he
  obtain ⟨p, hpmem, hp⟩ := List.mem_map.mp hl
  rw [← hp] at hel
  have hget : data[p.1]? = some p.2 := by
    have : (p.1, p.2) ∈ data.enum := by
      obtain ⟨a, b⟩ := p
      exact hpmem
    exact List.mk_mem_enum_iff_getElem?.mp this
  have hlt : p.1 < data.length := by
    by_contra hge
    push_neg at hge
    rw [List.getElem?_eq_none hge] at hget
    exact Option.noConfusion hget
  refine ⟨p.1, p.2, hget, hel, ?_, ?_⟩
  · rw [hnum p.1 p.2 e hel]
    omega
  · rw [hnum p.1 p.2 e hel]
    omega

/-- Witness for `c4_partial_success`: a two-row batch whose first row
misses the required field and whose second row passes; the passing row
is still returned, with one error for row 1. -/
theorem c4_partial_success_witness :
    ([[("c", Value.vStr "")], [("c", Value.vStr "ok")]] : List Row)[0]?
      = some [("c", Value.vStr "")]
    ∧ (validateFormData (fun _ => none)
        [[("c", Value.vStr "")], [("c", Value.vStr "ok")]]
        [⟨"f", "F", FieldType.text, true⟩] [("c", "f")]).data
      = [[("f", Value.vStr "ok")]]
    ∧ (validateFormData (fun _ => none)
        [[("c", Value.vStr "")], [("c", Value.vStr "ok")]]
        [⟨"f", "F", FieldType.text, true⟩] [("c", "f")]).errors
      = [⟨1, "f", "Required field F is missing", Value.vStr ""⟩]
    ∧ (∀ e ∈ (validateFormData (fun _ => none)
        [[("c", Value.vStr "")], [("c", Value.vStr "ok")]]
        [⟨"f", "F", FieldType.text, true⟩] [("c", "f")]).errors,
        ∃ i : Nat, ∃ row : Row,
          ([[("c", Value.vStr "")], [("c", Value.vStr "ok")]] : List Row)[i]?
            = some row
          ∧ e ∈ (processRow (fun _ => none) [⟨"f", "F", FieldType.text, true⟩]
              [("c", "f")] row i).rowErrors
          ∧ 1 ≤ e.row ∧ e.row ≤ 2) := by
  refine ⟨by decide, by decide, by decide, ?_⟩
  exact (c4_partial_success (fun _ => none)
    [[("c", Value.vStr "")], [("c", Value.vStr "ok")]]
    [⟨"f", "F", FieldType.text, true⟩] [("c", "f")]).2.2.2

lemma processRow_error_row (dp : Value → Option Int)
    (tpl : List FormField) (mp : StrMap) (row : Row) (i : Nat) :
    ∀ e ∈ (processRow dp tpl mp row i).rowErrors, e.row = i + 1 := by
  intro e he
  rw [processRow_rowErrors] at he
  obtain ⟨l, hl, hel⟩ := List.mem_flatten.mp he
  obtain ⟨pr, _, hpr⟩ := List.mem_map.mp hl
  rw [← hpr] at hel
  exact (pairErrors_mem dp tpl row i pr e hel).1

lemma countP_flatten_map {α β : Type} (l : List α) (f : α → List β)
    (q : β → Bool) :
    ((l.map f).flatten).countP q = (l.map (fun x => (f x).countP q)).sum := by
  induction l with
  | nil => rfl
  | cons x rest ih =>
      simp only [List.map_cons, List.flatten_cons, List.countP_append,
        List.sum_cons, ih]

lemma pairErrors_countP_ne (dp : Value → Option Int)
    (tpl : List FormField) (row : Row) (i : Nat) (t : String)
    (pr : String × String) (hne : pr.2 ≠ t) :
    (pairErrors dp tpl row i pr).countP
      (fun e => e.row == i + 1 && e.field == t) = 0 := by
  rw [List.countP_eq_zero]
  intro e he hq
  have hf := (pairErrors_mem dp tpl row i pr e he).2
  simp only [Bool.and_eq_true, beq_iff_eq] at hq
  exact hne (hf ▸ hq.2)

lemma pairErrors_required_missing (dp : Value → Option Int)
    (tpl : List FormField) (row : Row) (i : Nat) (s t : String)
    (f : FormField)
    (hfind : tpl.find? (fun g => g.name = t) = some f)
    (hreq : f.required = true)
    (hempty : emptyVal (rowGet row s) = true) :
    pairErrors dp tpl row i (s, t)
      = [⟨i + 1, t, "Required field " ++ f.label ++ " is missing",
          rowGet row s⟩] := by
  simp only [pairErrors, hfind, hreq, hempty, Bool.and_self, if_pos]

lemma countP_row_ne (dp : Value → Option Int) (tpl : List FormField)
    (mp : StrMap) (t : String) (tgt j : Nat) (row : Row) (hne : j ≠ tgt) :
    ((processRow dp tpl mp row j).rowErrors).countP
      (fun e => e.row == tgt + 1 && e.field == t) = 0 := by
  rw [List.countP_eq_zero]
  intro e he hq
  have hr := processRow_error_row dp tpl mp row j e he
  simp only [Bool.and_eq_true, beq_iff_eq] at hq
  omega

lemma sum_zero_rows (dp : Value → Option Int) (tpl : List FormField)
    (mp : StrMap) (t : String) (tgt : Nat) :
    ∀ (l : List Row) (k : Nat), tgt < k →
      ((l.enumFrom k).map (fun p =>
        ((processRow dp tpl mp p.2 p.1).rowErrors).countP
          (fun e => e.row == tgt + 1 && e.field == t))).sum = 0 := by
  intro l
  induction l with
  | nil => intro k _; rfl
  | cons x rest ih =>
      intro k hk
      rw [List.enumFrom_cons, List.map_cons, List.sum_cons,
        countP_row_ne dp tpl mp t tgt k x (by omega), ih (k + 1) (by omega)]

lemma sum_countP_rows (dp : Value → Option Int) (tpl : List FormField)
    (mp : StrMap) (t : String) (tgt : Nat) :
    ∀ (data : List Row) (k i : Nat) (row : Row),
      data[i]? = some row → k + i = tgt →
      ((data.enumFrom k).map (fun p =>
        ((processRow dp tpl mp p.2 p.1).rowErrors).countP
          (fun e => e.row == tgt + 1 && e.field == t))).sum
      = ((processRow dp tpl mp row tgt).rowErrors).countP
          (fun e => e.row == tgt + 1 && e.field == t) := by
  intro data
  induction data with
  | nil => intro k i row hget _; simp at hget
  | cons head rest ih =>
      intro k i row hget htgt
      rw [List.enumFrom_cons, List.map_cons, List.sum_cons]
      cases i with
      | zero =>
          rw [List.getElem?_cons_zero] at hget
          obtain rfl : head = row := Option.some_inj.mp hget
          have hk : k = tgt := by omega
          subst hk
          rw [sum_zero_rows dp tpl mp t k rest (k + 1) (by omega)]
          simp
      | succ i' =>
          rw [List.getElem?_cons_succ] at hget
          rw [countP_row_ne dp tpl mp t tgt k head (by omega),
            ih (k + 1) i' row hget (by omega)]
          omega

/-- Claim C5: for any raw row whose source value for a required mapped
field is null, undefined or empty (and a field mapping whose target
fields are pairwise distinct, the state the mapper is specified to hand
to validation), `validateFormData` keeps that whole row out of the
validated output — the output is exactly the processed forms of the
error-free rows — and records exactly one validation error whose field
is the target field name and whose row is the 1-based input index. -/
theorem c5_required_missing :
    ∀ (dp : Value → Option Int) (data : List Row) (tpl : List FormField)
      (mp : StrMap) (i : Nat) (row : Row) (s t : String) (f : FormField),
      (mp.map Prod.snd).Nodup →
      data[i]? = some row →
      (s, t) ∈ mp →
      tpl.find? (fun g => g.name = t) = some f →
      f.required = true →
      emptyVal (rowGet row s) = true →
      ((validateFormData dp data tpl mp).errors.countP
          (fun e => e.row == i + 1 && e.field == t) = 1)
      ∧ (processRow dp tpl mp row i).hasErrors = true
      ∧ (validateFormData dp data tpl mp).data
          = ((data.enum.map (fun p => processRow dp tpl mp p.2 p.1)).filter
              (fun st => st.rowErrors.isEmpty)).map RowState.processedRow := by
  intro dp data tpl mp i row s t f hnodup hget hmem hfind hreq hempty
  obtain ⟨l1, l2, hdecomp⟩ := List.append_of_mem hmem
  subst hdecomp
  have hmap : ((l1 ++ (s, t) :: l2).map Prod.snd)
      = l1.map Prod.snd ++ t :: l2.map Prod.snd := by
    rw [List.map_append, List.map_cons]
  rw [hmap] at hnodup
  rw [List.nodup_append] at hnodup
  obtain ⟨_, hnod2, hdisj⟩ := hnodup
  have ht2 : t ∉ l2.map Prod.snd := (List.nodup_cons.mp hnod2).1
  have ht1 : t ∉ l1.map Prod.snd := by
    intro hin
    exact hdisj hin (List.mem_cons_self t _)
  have h1 : ∀ pr ∈ l1, pr.2 ≠ t := by
    intro pr hpr heq
    exact ht1 (heq ▸ List.mem_map_of_mem Prod.snd hpr)
  have h2 : ∀ pr ∈ l2, pr.2 ≠ t := by
    intro pr hpr heq
    exact ht2 (heq ▸ List.mem_map_of_mem Prod.snd hpr)
  have hrowcount : ((processRow dp tpl (l1 ++ (s, t) :: l2) row i).rowErrors).countP
      (fun e => e.row == i + 1 && e.field == t) = 1 := by
    rw [processRow_rowErrors, countP_flatten_map, List.map_append,
      List.map_cons, List.sum_append, List.sum_cons]
    have hz1 : (l1.map (fun pr => (pairErrors dp tpl row i pr).countP
        (fun e => e.row == i + 1 && e.field == t))).sum = 0 := by
      apply List.sum_eq_zero
      intro x hx
      obtain ⟨pr, hpr, hx'⟩ := List.mem_map.mp hx
      rw [← hx']
      exact pairErrors_countP_ne dp tpl row i t pr (h1 pr hpr)
    have hz2 : (l2.map (fun pr => (pairErrors dp tpl row i pr).countP
        (fun e => e.row == i + 1 && e.field == t))).sum = 0 := by
      apply List.sum_eq_zero
      intro x hx
      obtain ⟨pr, hpr, hx'⟩ := List.mem_map.mp hx
      rw [← hx']
      exact pairErrors_countP_ne dp tpl row i t pr (h2 pr hpr)
    rw [hz1, hz2,
      pairErrors_required_missing dp tpl row i s t f hfind hreq hempty]
    simp
  refine ⟨?_, ?_, validateFormData_data_eq dp data tpl _⟩
  · rw [validateFormData_errors_eq, countP_flatten_map]
    have := sum_countP_rows dp tpl (l1 ++ (s, t) :: l2) t i data 0 i row hget
      (by omega)
    have henum : (data.enum : List (Nat × Row)) = data.enumFrom 0 := rfl
    rw [henum, this, hrowcount]
  · rw [processRow_hasErrors_eq_not_isEmpty]
    cases hemp : (processRow dp tpl (l1 ++ (s, t) :: l2) row i).rowErrors with
    | nil => rw [hemp] at hrowcount; simp at hrowcount
    | cons a rest => simp

/-- Witness for `c5_required_missing` at a concrete one-row batch with
an empty required field. -/
theorem c5_required_missing_witness :
    (([("c", "f")] : StrMap).map Prod.snd).Nodup
    ∧ ([[("c", Value.vNull)]] : List Row)[0]? = some [("c", Value.vNull)]
    ∧ (("c", "f") ∈ ([("c", "f")] : StrMap))
    ∧ ([⟨"f", "F", FieldType.decimal, true⟩] : List FormField).find?
        (fun g => g.name = "f") = some ⟨"f", "F", FieldType.decimal, true⟩
    ∧ emptyVal (rowGet [("c", Value.vNull)] "c") = true
    ∧ (validateFormData (fun _ => none) [[("c", Value.vNull)]]
        [⟨"f", "F", FieldType.decimal, true⟩] [("c", "f")]).errors.countP
        (fun e => e.row == 1 && e.field == "f") = 1
    ∧ (processRow (fun _ => none) [⟨"f", "F", FieldType.decimal, true⟩]
        [("c", "f")] [("c", Value.vNull)] 0).hasErrors = true := by
  have h := c5_required_missing (fun _ => none) [[("c", Value.vNull)]]
    [⟨"f", "F", FieldType.decimal, true⟩] [("c", "f")] 0 [("c", Value.vNull)]
    "c" "f" ⟨"f", "F", FieldType.decimal, true⟩
    (by simp) (by decide) (by decide) (by decide) (by decide) (by decide)
  exact ⟨by simp, by decide, by decide, by decide, by decide, h.1, h.2.1⟩

lemma foldl_processPair_filter_known (dp : Value → Option Int)
    (tpl : List FormField) (row : Row) (idx : Nat) :
    ∀ (pairs : StrMap) (st : RowState),
      pairs.foldl (processPair dp tpl row idx) st
        = (pairs.filter
            (fun pr => (tpl.find? (fun g => g.name = pr.2)).isSome)).foldl
            (processPair dp tpl row idx) st := by
  intro pairs
  induction pairs with
  | nil => intro st; rfl
  | cons pr rest ih =>
      intro st
      cases hf : tpl.find? (fun g => g.name = pr.2) with
      | none =>
          rw [List.filter_cons_of_neg (by simp [hf]), List.foldl_cons,
            processPair_processedRow_of_empty dp tpl row idx st pr hf, ih]
      | some f =>
          rw [List.filter_cons_of_pos (by simp [hf]), List.foldl_cons,
            List.foldl_cons, ih]

lemma foldl_processPair_all_unknown (dp : Value → Option Int)
    (tpl : List FormField) (row : Row) (idx : Nat) :
    ∀ (pairs : StrMap) (st : RowState),
      (∀ pr ∈ pairs, tpl.find? (fun g => g.name = pr.2) = none) →
      pairs.foldl (processPair dp tpl row idx) st = st := by
  intro pairs
  induction pairs with
  | nil => intro st _; rfl
  | cons pr rest ih =>
      intro st h
      rw [List.foldl_cons,
        processPair_processedRow_of_empty dp tpl row idx st pr
          (h pr (List.mem_cons_self pr rest)),
        ih st (fun q hq => h q (List.mem_cons_of_mem pr hq))]

lemma validateFormData_eq_mk (dp : Value → Option Int) (data : List Row)
    (tpl : List FormField) (mp : StrMap) :
    validateFormData dp data tpl mp
      = { success := ((data.enum.map (fun p => processRow dp tpl mp p.2 p.1)).map
            RowState.rowErrors).flatten.isEmpty
          processed := (((data.enum.map
            (fun p => processRow dp tpl mp p.2 p.1)).filter
            (fun st => !st.hasErrors)).map RowState.processedRow).length
          errors := ((data.enum.map (fun p => processRow dp tpl mp p.2 p.1)).map
            RowState.rowErrors).flatten
          data := ((data.enum.map (fun p => processRow dp tpl mp p.2 p.1)).filter
            (fun st => !st.hasErrors)).map RowState.processedRow } := rfl

lemma flatten_map_nil {α β : Type} (l : List α) :
    (l.map (fun _ => ([] : List β))).flatten = [] := by
  induction l with
  | nil => rfl
  | cons x rest ih => simp [ih]

lemma enumFrom_map_const {α β : Type} (c : β) :
    ∀ (l : List α) (k : Nat),
      (l.enumFrom k).map (fun _ => c) = l.map (fun _ => c) := by
  intro l
  induction l with
  | nil => intro k; rfl
  | cons x rest ih =>
      intro k
      rw [List.enumFrom_cons, List.map_cons, List.map_cons, ih]

/-- Claim C10: mapping pairs whose target field does not occur in the
form template are ignored entirely by `validateFormData` — the result is
the same as with those pairs filtered out — and when every pair has an
unknown target (in particular with an empty mapping) every input row
validates successfully as an empty typed row, with no error. -/
theorem c10_unknown_targets_ignored :
    ∀ (dp : Value → Option Int) (data : List Row) (tpl : List FormField)
      (mp : StrMap),
      validateFormData dp data tpl mp
        = validateFormData dp data tpl
            (mp.filter (fun pr => (tpl.find? (fun g => g.name = pr.2)).isSome))
      ∧ ((∀ pr ∈ mp, tpl.find? (fun g => g.name = pr.2) = none) →
          validateFormData dp data tpl mp
            = ⟨true, data.length, [], data.map (fun _ => [])⟩) := by
  intro dp data tpl mp
  constructor
  · have hrow : (fun p : Nat × Row => processRow dp tpl mp p.2 p.1)
        = (fun p : Nat × Row => processRow dp tpl
            (mp.filter (fun pr => (tpl.find? (fun g => g.name = pr.2)).isSome))
            p.2 p.1) := by
      funext p
      exact foldl_processPair_filter_known dp tpl p.2 p.1 mp ⟨[], [], false⟩
    unfold validateFormData
    rw [hrow]
  · intro h
    have hrow : (fun p : Nat × Row => processRow dp tpl mp p.2 p.1)
        = (fun _ : Nat × Row => (⟨[], [], false⟩ : RowState)) := by
      funext p
      exact foldl_processPair_all_unknown dp tpl p.2 p.1 mp ⟨[], [], false⟩ h
    have h1 : (data.enum.map
        (fun _ : Nat × Row => (⟨[], [], false⟩ : RowState)))
        = data.map (fun _ => (⟨[], [], false⟩ : RowState)) := by
      have : (data.enum : List (Nat × Row)) = data.enumFrom 0 := rfl
      rw [this, enumFrom_map_const]
    have h2 : ((data.map (fun _ => (⟨[], [], false⟩ : RowState))).map
        RowState.rowErrors).flatten = [] := by
      rw [List.map_map]
      exact flatten_map_nil data
    have h3 : (data.map (fun _ => (⟨[], [], false⟩ : RowState))).filter
        (fun st => !st.hasErrors)
        = data.map (fun _ => (⟨[], [], false⟩ : RowState)) := by
      apply List.filter_eq_self.mpr
      intro st hst
      obtain ⟨x, _, hx⟩ := List.mem_map.mp hst
      rw [← hx]
      rfl
    rw [validateFormData_eq_mk, hrow, h1, h2, h3, List.map_map]
    simp only [List.isEmpty_nil, List.length_map]
    rfl

/-- Witness for `c10_unknown_targets_ignored` with a one-pair mapping
whose target is absent from the template. -/
theorem c10_unknown_targets_ignored_witness :
    (∀ pr ∈ ([("col", "ghost")] : StrMap),
      ([⟨"f", "F", FieldType.text, true⟩] : List FormField).find?
        (fun g => g.name = pr.2) = none)
    ∧ validateFormData (fun _ => none) [[("col", Value.vStr "x")]]
        [⟨"f", "F", FieldType.text, true⟩] [("col", "ghost")]
      = ⟨true, 1, [], [[]]⟩ := by
  have h := (c10_unknown_targets_ignored (fun _ => none)
    [[("col", Value.vStr "x")]] [⟨"f", "F", FieldType.text, true⟩]
    [("col", "ghost")]).2
  refine ⟨by decide, ?_⟩
  exact h (by decide)
